import Mathlib

/-
Shallow embedding of the retrieval-augmented response pipeline of the
forex-agent backend (src/forex_agent and src/a2a_protocol), together with
theorems settling the specification claims about it.

Python strings are modelled by Lean `String`; Python slices, `str.join`,
`in` (substring) and `startswith` are modelled by the executable helpers
below, which operate on the underlying character lists.  External services
(the hosted LLM, the embedding endpoint, the database driver) are modelled
as explicit parameters: an `Option`/`Except` value represents the outcome
of one call, so a failing call is an explicit value rather than an
exception, and Django's `transaction.atomic` is modelled by returning the
unchanged state when the transaction body fails.
-/

/-- Python `s[:n]` on strings: the first `n` characters. -/
def pySlice (s : String) (n : Nat) : String := ⟨s.data.take n⟩

/-- Python `sep.join(parts)`. -/
def joinSep (sep : String) : List String → String
  | [] => ""
  | [x] => x
  | x :: xs => x ++ sep ++ joinSep sep xs

/-- Boolean character-list version of "is a prefix of" (Python `startswith`). -/
def isPrefixB : List Char → List Char → Bool
  | [], _ => true
  | _ :: _, [] => false
  | a :: as, b :: bs => a == b && isPrefixB as bs

/-- Python `s.startswith(p)`. -/
def hasPrefixS (p s : String) : Bool := isPrefixB p.data s.data

/-- Boolean character-list version of "occurs inside" (Python `in`). -/
def isInfixB (n : List Char) : List Char → Bool
  | [] => isPrefixB n []
  | a :: t => isPrefixB n (a :: t) || isInfixB n t

/-- Python `needle in s` for strings. -/
def containsSub (needle s : String) : Bool := isInfixB needle.data s.data

/-- One row of the `ProcessedContent` table (src/forex_agent/models.py):
the knowledge-base entry with its vector embedding. -/
structure ProcessedContent where
  source_url : String
  title : String
  processed_content : String
  embedding : List Int
  content_type : String
  published_at : Option Nat
deriving DecidableEq

/-- `MAX_CONTEXT_CHARACTERS` from src/forex_agent/tools.py. -/
def MAX_CONTEXT_CHARACTERS : Nat := 8000

/-- The per-article header built by `knowledge_base_search`
(f-string `--- Article Title: {article.title} ---\n`). -/
def articleHeader (article : ProcessedContent) : String :=
  "--- Article Title: " ++ article.title ++ " ---\n"

/-- `len(header) + len(content)` for one article. -/
def partSize (article : ProcessedContent) : Nat :=
  (articleHeader article).length + article.processed_content.length

/-- The context-building loop of `knowledge_base_search`
(src/forex_agent/tools.py lines 49-65): walks the ranked articles keeping a
running character count `current`; a fully fitting article is appended as
header ++ content; the first article that would push the count past
`MAX_CONTEXT_CHARACTERS` is truncated to the remaining space (reserving 20
characters for the marker) provided more than 100 characters remain, and
the loop stops there. -/
def buildContextParts : List ProcessedContent → Nat → List String
  | [], _ => []
  | article :: rest, current =>
    let header := articleHeader article
    let content := article.processed_content
    let part_size := header.length + content.length
    if current + part_size > MAX_CONTEXT_CHARACTERS then
      let remaining_space : Int :=
        (MAX_CONTEXT_CHARACTERS : Int) - (current : Int) - (header.length : Int) - 20
      if remaining_space > 100 then
        [header ++ (pySlice content remaining_space.toNat ++ "... (truncated)")]
      else []
    else (header ++ content) :: buildContextParts rest (current + part_size)

/-- `knowledge_base_search` (src/forex_agent/tools.py lines 18-78).
`query_embedding` is the outcome of `embedding_generator.create_embedding`
(which catches its own exceptions and returns `None` on failure);
`vectorQuery` is the outcome of evaluating the `L2Distance`-ordered
database query, `.error e` meaning the query raised (caught by the
function's outer `except`, whose message embeds `str(e)`).  The `[:3]`
slice of the ORM query is the `take 3`. -/
def knowledge_base_search (query_embedding : Option (List Int))
    (vectorQuery : Except String (List ProcessedContent)) : String :=
  match query_embedding with
  | none => "CONTEXT_NOT_FOUND: An internal error occurred while preparing the search."
  | some _ =>
    match vectorQuery with
    | .error e =>
      "CONTEXT_NOT_FOUND: An internal error occurred during the knowledge base search: " ++ e
    | .ok ranked =>
      let similar_articles := ranked.take 3
      if similar_articles.isEmpty then
        "CONTEXT_NOT_FOUND: No specific information was found for this query."
      else
        let context_parts := buildContextParts similar_articles 0
        if context_parts.isEmpty then
          "CONTEXT_NOT_FOUND: Relevant information was found but was too large to process."
        else
          "Relevant information found in the knowledge base:\n\n" ++
            joinSep "\n\n" context_parts

/-- Descending order on publication dates used by
`order_by('-published_at')`: `newsLeB a b` says article `b` sorts no
earlier than `a` does not hold... concretely, `b`'s key is at most `a`'s
key, where a missing date sorts first under `DESC` (PostgreSQL
`NULLS FIRST` default), i.e. counts as the top key. -/
def newsLeB (a b : ProcessedContent) : Bool :=
  match a.published_at, b.published_at with
  | none, _ => true
  | some _, none => false
  | some x, some y => Nat.ble y x

/-- The propositional form of `newsLeB`: `a` may appear before `b` in the
`-published_at` ordering. -/
def newsDescRel (a b : ProcessedContent) : Prop := newsLeB a b = true

instance : DecidableRel newsDescRel := fun a b => instDecidableEqBool (newsLeB a b) true

instance : IsTotal ProcessedContent newsDescRel where
  total a b := by
    unfold newsDescRel newsLeB
    cases ha : a.published_at with
    | none => exact Or.inl rfl
    | some x =>
      cases hb : b.published_at with
      | none => exact Or.inr rfl
      | some y =>
        rcases Nat.le_total y x with h | h
        · exact Or.inl (by simpa [Nat.ble_eq] using h)
        · exact Or.inr (by simpa [Nat.ble_eq] using h)

instance : IsTrans ProcessedContent newsDescRel where
  trans a b c hab hbc := by
    unfold newsDescRel newsLeB at *
    cases ha : a.published_at with
    | none => rfl
    | some x =>
      cases hb : b.published_at with
      | none => simp [ha, hb] at hab
      | some y =>
        cases hc : c.published_at with
        | none => simp [hb, hc] at hbc
        | some z =>
          simp only [ha, hb, hc, Nat.ble_eq] at *
          exact Nat.le_trans hbc hab

/-- The database query of `get_latest_market_news`
(`ProcessedContent.objects.filter(content_type='news').order_by('-published_at')[:5]`):
rows of category news, sorted newest first, limited to 5. -/
def newsQueryRows (processed : List ProcessedContent) : List ProcessedContent :=
  ((processed.filter (fun p => p.content_type == "news")).insertionSort newsDescRel).take 5

/-- Opening line of the news summary string. -/
def newsPreamble : String := "Here are the latest market news summaries:\n\n"

/-- One bullet of the news summary (f-string `- **{item.title}**: {item.processed_content}\n`). -/
def newsBullet (item : ProcessedContent) : String :=
  "- **" ++ item.title ++ "**: " ++ item.processed_content ++ "\n"

/-- `get_latest_market_news` (src/forex_agent/tools.py lines 83-108).
`dbError = some e` is the case where evaluating the query raised `e`,
which the function's `except` turns into the sentinel string. -/
def get_latest_market_news (processed : List ProcessedContent)
    (dbError : Option String) : String :=
  match dbError with
  | some e =>
    "CONTEXT_NOT_FOUND: An internal error occurred while fetching news from the database: " ++ e
  | none =>
    let news_items := newsQueryRows processed
    if news_items.isEmpty then
      "CONTEXT_NOT_FOUND: There is no recent market news available in the knowledge base at this time."
    else
      newsPreamble ++ String.join (news_items.map newsBullet)

/-- One row of the `RawContent` staging table (src/forex_agent/models.py). -/
structure RawContent where
  id : Nat
  source_url : String
  title : String
  raw_content : String
  content_type : String
  published_at_str : Option String
  is_processed : Bool
  created_at : Nat
deriving DecidableEq

/-- The persisted state the staged-content processor touches. -/
structure ForexDB where
  raw : List RawContent
  processed : List ProcessedContent
deriving DecidableEq

/-- The external services used by `_execute_ai_processing`
(src/forex_agent/ai_services.py).  `clean_and_format_text` is total: the
Python method catches its own exceptions (returning the raw text) and
signals blocked output with a fixed "could not be processed" message.
`create_embedding` catches its own exceptions and returns `None` on any
failure.  `strptime` is the outcome of `datetime.strptime` on a
non-numeric timestamp string (`none` = raised, caught in the task). -/
structure ExtServices where
  clean_and_format_text : String → String → String
  create_embedding : String → Option (List Int)
  strptime : String → Option Nat

/-- Step 4 of `_execute_ai_processing` (src/forex_agent/tasks.py lines
62-72): numeric strings are read as Unix timestamps, other non-empty
strings go through `strptime`, and any parse failure leaves the date
`None`. -/
def parsePublishedAt (ext : ExtServices) (s? : Option String) : Option Nat :=
  match s? with
  | none => none
  | some s =>
    if s = "" then none
    else if s.data.all Char.isDigit then some (s.toNat?.getD 0)
    else ext.strptime s

/-- `_execute_ai_processing` (src/forex_agent/tasks.py lines 30-84):
skip when the URL already has a `ProcessedContent` row; otherwise clean
with the LLM (raising `ValueError` on empty or "could not be processed"
output), embed (raising on `None`), and append the new row.  `.error`
models a raised exception. -/
def execute_ai_processing (ext : ExtServices) (db : ForexDB)
    (raw_content_item : RawContent) : Except String ForexDB :=
  if db.processed.any (fun p => p.source_url == raw_content_item.source_url) then
    .ok db
  else
    let processed_text :=
      ext.clean_and_format_text raw_content_item.raw_content raw_content_item.content_type
    if processed_text == "" || containsSub "could not be processed" processed_text then
      .error "AI content processing failed or returned empty"
    else
      match ext.create_embedding processed_text with
      | none => .error "Embedding generation failed"
      | some embedding_vector =>
        .ok { db with processed := db.processed ++
          [⟨raw_content_item.source_url, raw_content_item.title, processed_text,
            embedding_vector, raw_content_item.content_type,
            parsePublishedAt ext raw_content_item.published_at_str⟩] }

/-- The row claim of `process_one_staged_content_item`:
`RawContent.objects.select_for_update(skip_locked=True)
 .filter(is_processed=False).order_by('created_at').first()`
in a single-worker run (no rows are locked by others). -/
def pickOldestUnprocessed (raw : List RawContent) : Option RawContent :=
  ((raw.filter (fun r => !r.is_processed)).insertionSort
    (fun a b => a.created_at ≤ b.created_at)).head?

/-- `item_to_process.is_processed = True; item_to_process.save()`. -/
def markProcessed (raw : List RawContent) (id : Nat) : List RawContent :=
  raw.map (fun r => if r.id = id then { r with is_processed := true } else r)

/-- `process_one_staged_content_item` (src/forex_agent/tasks.py lines
87-119): claim one unprocessed row, run `_execute_ai_processing`, and mark
the row processed; any exception rolls the `transaction.atomic` block back
(the unchanged state is returned) and is swallowed by the `except`. -/
def process_one_staged_content_item (ext : ExtServices) (db : ForexDB) : ForexDB :=
  match pickOldestUnprocessed db.raw with
  | none => db
  | some item_to_process =>
    match execute_ai_processing ext db item_to_process with
    | .error _ => db
    | .ok db2 => { db2 with raw := markProcessed db2.raw item_to_process.id }

/-- One `ConversationHistory` row (src/forex_agent/models.py). -/
structure ConversationTurn where
  context_id : String
  user_message : String
  agent_message : String
deriving DecidableEq

/-- The persisted state `get_agent_response_async` touches: the Redis
response cache (a key-value map, modelled as an association list) and the
append-only `ConversationHistory` table. -/
structure AgentState where
  cache : List (String × String)
  history : List ConversationTurn
deriving DecidableEq

/-- `cache.get(key)`. -/
def cacheGet : List (String × String) → String → Option String
  | [], _ => none
  | kv :: rest, k => if kv.1 == k then some kv.2 else cacheGet rest k

/-- `cache.set(key, value, timeout=600)` (the TTL is not modelled). -/
def cacheSet : List (String × String) → String → String → List (String × String)
  | [], k, v => [(k, v)]
  | kv :: rest, k, v => if kv.1 == k then (k, v) :: rest else kv :: cacheSet rest k v

/-- The cache key `f"forex_agent:response:{user_prompt}"`. -/
def cacheKey (user_prompt : String) : String := "forex_agent:response:" ++ user_prompt

/-- The fixed apology of the `except` branch of `get_agent_response_async`. -/
def internalErrorMessage : String :=
  "I'm sorry, I encountered an internal error while trying to process your request. Please try again in a moment."

/-- Outcomes of the external calls of one live run of the pipeline
(src/forex_agent/agent_logic.py).  `invoke` is the combined outcome of
`create_forex_agent_executor` plus `agent_executor.invoke` plus reading
`result['output']`: `.error` when any of them raised (or the executor came
back `None`, which the code turns into a raise), `.ok text` otherwise.
`general_qna` is the text returned by
`ai_processor.get_general_qna_response`, a method that catches its own
exceptions and always returns a string. -/
structure AgentExecution where
  invoke : Except Unit String
  general_qna : String

/-- The value produced by one call of `get_agent_response_async`: the
returned text, the state after the call, and whether the live LLM/agent
path was entered (`False` on a served-from-cache turn). -/
structure AgentRunResult where
  response : String
  state : AgentState
  liveExecuted : Bool
deriving DecidableEq

/-- `get_agent_response_async` (src/forex_agent/agent_logic.py lines
104-167).  `if cached_response:` is Python truthiness, so an empty cached
string falls through to the live path.  On the live path an exception
from executor creation / invoke leaves `final_agent_response` empty, so
the `except` returns `internalErrorMessage` with no history or cache
write; on success, a response containing `FALLBACK_TO_GENERAL_KNOWLEDGE`
is replaced by the general-knowledge answer, then one history row and the
cache entry are written. -/
def get_agent_response_async (exec : AgentExecution) (st : AgentState)
    (user_prompt context_id : String) : AgentRunResult :=
  let key := cacheKey user_prompt
  let live : AgentRunResult :=
    match exec.invoke with
    | .error _ => { response := internalErrorMessage, state := st, liveExecuted := true }
    | .ok agent_response_text =>
      let final_agent_response :=
        if containsSub "FALLBACK_TO_GENERAL_KNOWLEDGE" agent_response_text then
          exec.general_qna
        else agent_response_text
      { response := final_agent_response,
        state := { cache := cacheSet st.cache key final_agent_response,
                   history := st.history ++
                     [⟨context_id, user_prompt, final_agent_response⟩] },
        liveExecuted := true }
  match cacheGet st.cache key with
  | some cached_response =>
    if cached_response == "" then live
    else
      { response := cached_response,
        state := { st with history := st.history ++
            [⟨context_id, user_prompt, cached_response⟩] },
        liveExecuted := false }
  | none => live

/-- A JSON value as a request-body field carries it after JSON parsing.
A number `jnum pyStr` is represented by the string Python's `str()`
produces for the parsed value (the JSON number `2.0` parses to the float
whose `str()` is "2.0", `2` to the int whose `str()` is "2"): that
formatting is Python-library behaviour, carried here as data.  Arrays and
objects are collapsed to markers — the CharField below rejects them
without looking inside. -/
inductive JsonValue where
  | jstr (s : String)
  | jnum (pyStr : String)
  | jbool (b : Bool)
  | jnull
  | jarr
  | jobj
deriving DecidableEq

/-- Python `s.strip()`: surrounding whitespace removed (ASCII whitespace;
Python also strips some further Unicode space characters, which no value
in these theorems contains). -/
def pyStrip (s : String) : String :=
  ⟨((s.data.dropWhile Char.isWhitespace).reverse.dropWhile Char.isWhitespace).reverse⟩

/-- DRF `CharField.to_internal_value` with its `trim_whitespace = True`
default, which runs before any field-level validator: `None` fails the
null check of `run_validation`, booleans and composites fail with "Not a
valid string.", and strings and numbers are coerced with `str(data)` and
stripped of surrounding whitespace. -/
def charFieldToInternal : JsonValue → Except String String
  | .jstr s => .ok (pyStrip s)
  | .jnum pyStr => .ok (pyStrip pyStr)
  | .jbool _ => .error "Not a valid string."
  | .jnull => .error "This field may not be null."
  | .jarr => .error "Not a valid string."
  | .jobj => .error "Not a valid string."

/-- The top-level fields of an incoming A2A body as seen by
`JSONRPCRequestSerializer` (src/a2a_protocol/serializers.py): each
`Option` is `none` when the key is absent.  `jsonrpc` carries the raw
JSON value, since its CharField conversion matters to the claims; `id`
and `method` carry the converted string when the key is present (their
conversion detail never affects the theorems below, which only need the
`jsonrpc` entry of the error map).  The nested `params` subtree is
validated by its own serializers, whose outcome (a possibly empty list of
field-error entries) is abstracted as `paramsFieldErrors`. -/
structure A2ABody where
  jsonrpc : Option JsonValue
  id : Option String
  method : Option String
  paramsFieldErrors : List (String × List String)
deriving DecidableEq

/-- Errors on the `jsonrpc` field: `required = True`, then the CharField
conversion (`str()` coercion plus whitespace trimming), then
`validate_jsonrpc`, which rejects every converted value other than the
exact string "2.0". -/
def jsonrpcFieldErrors : Option JsonValue → List String
  | none => ["This field is required."]
  | some v =>
    match charFieldToInternal v with
    | .error e => [e]
    | .ok value =>
      if value == "2.0" then [] else ["The 'jsonrpc' version must be '2.0'."]

/-- Errors on the `id` field (`CharField(required=True)`). -/
def idFieldErrors : Option String → List String
  | none => ["This field is required."]
  | some _ => []

/-- Errors on the `method` field (`ChoiceField(choices=["message/send", "execute"])`). -/
def methodFieldErrors : Option String → List String
  | none => ["This field is required."]
  | some m => if m == "message/send" || m == "execute" then [] else ["not a valid choice."]

/-- `serializer.errors`: the per-field error map produced by
`serializer.is_valid()`, keeping only fields that actually failed. -/
def serializerErrors (b : A2ABody) : List (String × List String) :=
  ([("jsonrpc", jsonrpcFieldErrors b.jsonrpc),
    ("id", idFieldErrors b.id),
    ("method", methodFieldErrors b.method)].filter (fun f => !f.2.isEmpty))
    ++ b.paramsFieldErrors

/-- What the HTTP layer sees from `A2AEndpointView.post`: status code, the
JSON-RPC error object (code and the field names carried in its `data`
payload) when one is returned, and whether `get_agent_response_async` (the
agent business logic) was invoked while producing the response. -/
structure A2AViewResult where
  httpStatus : Nat
  errorCode : Option Int
  errorDataFields : List String
  agentInvoked : Bool
deriving DecidableEq

/-- The validation gate of `A2AEndpointView.post`
(src/a2a_protocol/views.py lines 58-75): run the serializer; on any
validation error answer HTTP 400 with JSON-RPC code -32602 and
`serializer.errors` as the `data` payload, without touching the agent.
`proceed` stands for the rest of the handler (steps 2-5), which runs only
when validation passed. -/
def a2a_post (b : A2ABody) (proceed : A2AViewResult) : A2AViewResult :=
  let errs := serializerErrors b
  if errs.isEmpty then proceed
  else
    { httpStatus := 400,
      errorCode := some (-32602),
      errorDataFields := errs.map (fun f => f.1),
      agentInvoked := false }

/-- A body whose `jsonrpc` is the string "1.0" (other fields valid). -/
def bodyJsonrpc10 : A2ABody :=
  ⟨some (.jstr "1.0"), some "req-1", some "message/send", []⟩

/-- A body whose `jsonrpc` is the string " 2.0": a value other than the
exact string "2.0", which CharField trimming nevertheless converts to
"2.0". -/
def bodyJsonrpcPadded : A2ABody :=
  ⟨some (.jstr " 2.0"), some "req-1", some "message/send", []⟩

/-- A stand-in outcome for the post-validation part of the handler: a 200
response produced with the agent invoked. -/
def proceedAgentRun : A2AViewResult := ⟨200, none, [], true⟩

/-- The full (untruncated) context entry for one article:
header followed by the whole processed content. -/
def contextFullPart (article : ProcessedContent) : String :=
  articleHeader article ++ article.processed_content

/-- The running total of `len(header) + len(content)` over a list of
articles, as accumulated by the context-building loop. -/
def sizeSum (l : List ProcessedContent) : Nat := (l.map partSize).sum

/-- Every article of the list fits the budget when the loop starts at the
given running count: each successive addition stays within
`MAX_CONTEXT_CHARACTERS`. -/
def allFitFrom : List ProcessedContent → Nat → Prop
  | [], _ => True
  | article :: rest, current =>
    current + partSize article ≤ MAX_CONTEXT_CHARACTERS ∧
      allFitFrom rest (current + partSize article)

/-- What the loop emits for the first article that would exceed the
budget: a single truncated entry when more than 100 characters of content
space remain (after reserving the header and 20 characters for the
marker), and nothing at all otherwise. -/
def truncPiece (article : ProcessedContent) (current : Nat) : List String :=
  let header := articleHeader article
  let remaining_space : Int :=
    (MAX_CONTEXT_CHARACTERS : Int) - (current : Int) - (header.length : Int) - 20
  if remaining_space > 100 then
    [header ++ (pySlice article.processed_content remaining_space.toNat ++ "... (truncated)")]
  else []

/-- A ranked article whose header plus content is exactly 8000 characters,
so the builder keeps it whole and the returned string overshoots the
budget by the preamble length. -/
def kbBigArticle : ProcessedContent :=
  ⟨"https://example.com/a", "T", ⟨List.replicate 7975 'a'⟩, [1], "article", none⟩

/-- An article whose full text (7925 characters) nearly exhausts the
budget on its own. -/
def kbNearFullArticle : ProcessedContent :=
  ⟨"https://example.com/b", "A", ⟨List.replicate 7925 'a'⟩, [1], "article", none⟩

/-- A second ranked article of 200 characters: adding it would exceed the
budget, with only 5 characters of content space left. -/
def kbSecondArticle : ProcessedContent :=
  ⟨"https://example.com/c", "B", ⟨List.replicate 200 'b'⟩, [1], "article", none⟩

/-- An article far larger than the whole budget, used to exercise the
truncation branch. -/
def kbOverflowArticle : ProcessedContent :=
  ⟨"https://example.com/d", "D", ⟨List.replicate 9000 'd'⟩, [1], "article", none⟩

/-- No `ProcessedContent` row shares its `source_url` with a later row:
the executable form of the unique-URL invariant of the table
(`source_url = models.URLField(unique=True, ...)`). -/
def uniqueUrlsB : List ProcessedContent → Bool
  | [] => true
  | p :: rest =>
    !(rest.any (fun q => q.source_url == p.source_url)) && uniqueUrlsB rest

/-- External services where every call fails: the LLM cleaner returns an
empty string and the embedding endpoint returns `None`. -/
def extAllFail : ExtServices :=
  ⟨fun _ _ => "", fun _ => none, fun _ => none⟩

/-- External services where every call succeeds. -/
def extOk : ExtServices :=
  ⟨fun _ _ => "clean text", fun _ => some [1], fun _ => none⟩

/-- A staged row whose source URL already has a `ProcessedContent` row. -/
def rawStagedDup : RawContent :=
  ⟨1, "https://site/a", "T", "body", "article", none, false, 0⟩

/-- The pre-existing knowledge-base row for the same URL. -/
def procExisting : ProcessedContent :=
  ⟨"https://site/a", "T", "older text", [1], "article", none⟩

/-- A database where the only staged row duplicates an existing URL. -/
def dbDup : ForexDB := ⟨[rawStagedDup], [procExisting]⟩

/-- A staged row with a URL not yet in the knowledge base. -/
def rawFresh : RawContent :=
  ⟨1, "https://site/new", "T", "raw body", "article", none, false, 0⟩

/-- A database with one fresh staged row and an empty knowledge base. -/
def dbFresh : ForexDB := ⟨[rawFresh], []⟩

/-- The value `get_agent_response_async` produces on a cache miss whose
live agent invocation returned `out` without raising: the fallback check
picks the final text, then one history row and the cache entry are
written. -/
def liveSuccessResult (exec : AgentExecution) (st : AgentState)
    (user_prompt context_id out : String) : AgentRunResult :=
  let final_agent_response :=
    if containsSub "FALLBACK_TO_GENERAL_KNOWLEDGE" out then
      exec.general_qna
    else out
  { response := final_agent_response,
    state := { cache := cacheSet st.cache (cacheKey user_prompt) final_agent_response,
               history := st.history ++
                 [⟨context_id, user_prompt, final_agent_response⟩] },
    liveExecuted := true }

/-- A state whose cache maps the prompt "p" to the empty string. -/
def stEmptyCached : AgentState := ⟨[(cacheKey "p", "")], []⟩

/-- A state whose cache maps the prompt "p" to the answer "ans". -/
def stCachedAns : AgentState := ⟨[(cacheKey "p", "ans")], []⟩

/-- The empty agent state: empty cache, empty history. -/
def stEmpty : AgentState := ⟨[], []⟩

/-- A live run whose agent invocation succeeds with the text "X". -/
def execOkX : AgentExecution := ⟨.ok "X", "fallback answer"⟩

/-- A live run whose agent invocation raises. -/
def execRaise : AgentExecution := ⟨.error (), "fallback answer"⟩

/-- A news row dated 10. -/
def newsRowA : ProcessedContent := ⟨"https://n/a", "A", "ta", [1], "news", some 10⟩

/-- A news row dated 5. -/
def newsRowB : ProcessedContent := ⟨"https://n/b", "B", "tb", [1], "news", some 5⟩

/-- An educational (non-news) row. -/
def articleRow : ProcessedContent := ⟨"https://n/c", "C", "tc", [1], "article", some 20⟩

/-- A small knowledge base holding two news rows and one article row. -/
def newsDb : List ProcessedContent := [newsRowB, articleRow, newsRowA]

theorem isPrefixB_append : ∀ (n l e : List Char),
    isPrefixB n l = true → isPrefixB n (l ++ e) = true
  | [], _, _, _ => rfl
  | a :: as, [], e, h => by simp [isPrefixB] at h
  | a :: as, b :: bs, e, h => by
    simp only [isPrefixB, Bool.and_eq_true, beq_iff_eq] at h
    simp only [List.cons_append, isPrefixB, Bool.and_eq_true, beq_iff_eq]
    exact ⟨h.1, isPrefixB_append as bs e h.2⟩

theorem isPrefixB_append_false : ∀ (n l e : List Char),
    isPrefixB n l = false → n.length ≤ l.length → isPrefixB n (l ++ e) = false
  | [], l, e, h, _ => by simp [isPrefixB] at h
  | a :: as, [], e, h, hlen => by simp at hlen
  | a :: as, b :: bs, e, h, hlen => by
    simp only [isPrefixB, Bool.and_eq_false_iff] at h
    simp only [List.cons_append, isPrefixB, Bool.and_eq_false_iff]
    rcases h with h | h
    · exact Or.inl h
    · exact Or.inr (isPrefixB_append_false as bs e h (by simpa using hlen))

theorem hasPrefixS_append (p l e : String) (h : hasPrefixS p l = true) :
    hasPrefixS p (l ++ e) = true := by
  unfold hasPrefixS at *
  rw [String.data_append]
  exact isPrefixB_append _ _ _ h

theorem hasPrefixS_append_false (p l e : String) (h : hasPrefixS p l = false)
    (hlen : p.length ≤ l.length) : hasPrefixS p (l ++ e) = false := by
  unfold hasPrefixS at *
  rw [String.data_append]
  exact isPrefixB_append_false _ _ _ h hlen

theorem joinSep_length (sep : String) : ∀ (l : List String), l ≠ [] →
    (joinSep sep l).length = (l.map String.length).sum + sep.length * (l.length - 1)
  | [x], _ => by simp [joinSep]
  | x :: y :: ys, _ => by
    have ih := joinSep_length sep (y :: ys) (by simp)
    simp only [joinSep, String.length_append, ih, List.map_cons, List.sum_cons,
      List.length_cons, Nat.add_sub_cancel]
    ring

theorem pySlice_length (s : String) (n : Nat) :
    (pySlice s n).length = min n s.length := by
  show (s.data.take n).length = min n s.data.length
  exact List.length_take n s.data

theorem buildContextParts_budget : ∀ (l : List ProcessedContent) (current : Nat),
    current ≤ MAX_CONTEXT_CHARACTERS →
    current + ((buildContextParts l current).map String.length).sum ≤ MAX_CONTEXT_CHARACTERS
  | [], current, h => by simpa [buildContextParts]
  | article :: rest, current, h => by
    simp only [buildContextParts]
    split
    case isTrue hover =>
      split
      case isTrue hrem =>
        simp only [List.map_cons, List.map_nil, List.sum_cons, List.sum_nil,
          String.length_append, pySlice_length]
        have hm : ("... (truncated)" : String).length = 15 := by decide
        rw [hm]
        omega
      case isFalse hrem => simpa
    case isFalse hfit =>
      simp only [List.map_cons, List.sum_cons, String.length_append]
      have ih := buildContextParts_budget rest
        (current + ((articleHeader article).length + article.processed_content.length))
        (by omega)
      omega

theorem buildContextParts_length_le : ∀ (l : List ProcessedContent) (current : Nat),
    (buildContextParts l current).length ≤ l.length
  | [], _ => by simp [buildContextParts]
  | article :: rest, current => by
    simp only [buildContextParts]
    split
    · split
      · simp
      · simp
    · simpa using buildContextParts_length_le rest _

/-- C1 (amended): when `knowledge_base_search` does not return a
`CONTEXT_NOT_FOUND` sentinel, the budget check only bounds the article
parts (headers plus contents) by `MAX_CONTEXT_CHARACTERS`; the returned
string additionally carries the 51-character preamble and up to two
2-character separators, so its length is bounded by
`MAX_CONTEXT_CHARACTERS + 55`, not by `MAX_CONTEXT_CHARACTERS` itself. -/
theorem C1_context_length_bounded (query_embedding : Option (List Int))
    (vectorQuery : Except String (List ProcessedContent))
    (h : hasPrefixS "CONTEXT_NOT_FOUND"
      (knowledge_base_search query_embedding vectorQuery) = false) :
    (knowledge_base_search query_embedding vectorQuery).length
      ≤ MAX_CONTEXT_CHARACTERS + 55 := by
  cases query_embedding with
  | none =>
    simp only [knowledge_base_search] at h
    have ht : hasPrefixS "CONTEXT_NOT_FOUND"
        "CONTEXT_NOT_FOUND: An internal error occurred while preparing the search." = true := by
      decide
    simp [ht] at h
  | some v =>
    cases vectorQuery with
    | error e =>
      simp only [knowledge_base_search] at h
      have ht := hasPrefixS_append "CONTEXT_NOT_FOUND"
        "CONTEXT_NOT_FOUND: An internal error occurred during the knowledge base search: " e
        (by decide)
      simp [ht] at h
    | ok ranked =>
      simp only [knowledge_base_search] at h ⊢
      by_cases hemp : (ranked.take 3).isEmpty
      · rw [if_pos hemp] at h
        have ht : hasPrefixS "CONTEXT_NOT_FOUND"
            "CONTEXT_NOT_FOUND: No specific information was found for this query." = true := by
          decide
        simp [ht] at h
      · rw [if_neg hemp] at h ⊢
        by_cases hparts : (buildContextParts (ranked.take 3) 0).isEmpty
        · rw [if_pos hparts] at h
          have ht : hasPrefixS "CONTEXT_NOT_FOUND"
              "CONTEXT_NOT_FOUND: Relevant information was found but was too large to process." = true := by
            decide
          simp [ht] at h
        · rw [if_neg hparts]
          have hne : buildContextParts (ranked.take 3) 0 ≠ [] := by
            simpa [List.isEmpty_iff] using hparts
          have hb := buildContextParts_budget (ranked.take 3) 0
            (by norm_num [MAX_CONTEXT_CHARACTERS])
          have hk : (buildContextParts (ranked.take 3) 0).length ≤ 3 := by
            refine le_trans (buildContextParts_length_le _ _) ?_
            rw [List.length_take]
            exact min_le_left _ _
          rw [String.length_append, joinSep_length _ _ hne]
          have hp : ("Relevant information found in the knowledge base:\n\n" : String).length
              = 51 := by decide
          have hs : ("\n\n" : String).length = 2 := by decide
          rw [hp, hs]
          simp only [MAX_CONTEXT_CHARACTERS] at hb ⊢
          omega

theorem kbBigArticle_content_length : kbBigArticle.processed_content.length = 7975 := by
  show (List.replicate 7975 'a').length = 7975
  exact List.length_replicate 7975 'a'

theorem kbBigArticle_header_length : (articleHeader kbBigArticle).length = 25 := by
  have h : articleHeader kbBigArticle = "--- Article Title: T ---\n" := rfl
  rw [h]
  decide

theorem kbBigArticle_parts : buildContextParts [kbBigArticle] 0
    = [articleHeader kbBigArticle ++ kbBigArticle.processed_content] := by
  simp only [buildContextParts]
  rw [if_neg]
  · rw [kbBigArticle_header_length, kbBigArticle_content_length]
    norm_num [MAX_CONTEXT_CHARACTERS]

theorem kbBigArticle_result : knowledge_base_search (some [1]) (.ok [kbBigArticle])
    = "Relevant information found in the knowledge base:\n\n" ++
      (articleHeader kbBigArticle ++ kbBigArticle.processed_content) := by
  simp only [knowledge_base_search, List.take, List.isEmpty_cons, kbBigArticle_parts]
  rfl

/-- C1 (counterexample to the claim as stated): one candidate article with
a 25-character header and 7975 characters of content fits the 8000 budget
exactly, yet the string `knowledge_base_search` returns is 8051 characters
long — longer than `MAX_CONTEXT_CHARACTERS` — and is not a sentinel. -/
theorem C1_counterexample :
    hasPrefixS "CONTEXT_NOT_FOUND"
      (knowledge_base_search (some [1]) (.ok [kbBigArticle])) = false ∧
    (knowledge_base_search (some [1]) (.ok [kbBigArticle])).length = 8051 ∧
    MAX_CONTEXT_CHARACTERS < 8051 := by
  refine ⟨?_, ?_, by norm_num [MAX_CONTEXT_CHARACTERS]⟩
  · rw [kbBigArticle_result]
    refine hasPrefixS_append_false _ _ _ (by decide) (by decide)
  · rw [kbBigArticle_result, String.length_append, String.length_append,
      kbBigArticle_header_length, kbBigArticle_content_length]
    decide

/-- C1 (witness): a small article produces a non-sentinel context string,
and the bound theorem applies to it. -/
theorem C1_witness :
    hasPrefixS "CONTEXT_NOT_FOUND"
      (knowledge_base_search (some [1])
        (.ok [⟨"u", "T", "hello", [1], "article", none⟩])) = false ∧
    (knowledge_base_search (some [1])
        (.ok [⟨"u", "T", "hello", [1], "article", none⟩])).length
      ≤ MAX_CONTEXT_CHARACTERS + 55 := by
  refine ⟨by decide, C1_context_length_bounded _ _ (by decide)⟩

theorem buildContextParts_allFit : ∀ (l : List ProcessedContent) (current : Nat),
    allFitFrom l current → buildContextParts l current = l.map contextFullPart
  | [], _, _ => rfl
  | article :: rest, current, h => by
    obtain ⟨h1, h2⟩ := h
    simp only [buildContextParts, List.map_cons]
    rw [if_neg (by simp only [partSize] at h1; omega)]
    exact congrArg _ (buildContextParts_allFit rest _ h2)

theorem sizeSum_cons (a : ProcessedContent) (l : List ProcessedContent) :
    sizeSum (a :: l) = partSize a + sizeSum l := by
  simp [sizeSum]

theorem buildContextParts_overflow : ∀ (pre : List ProcessedContent)
    (article : ProcessedContent) (post : List ProcessedContent) (current : Nat),
    allFitFrom pre current →
    current + sizeSum pre + partSize article > MAX_CONTEXT_CHARACTERS →
    buildContextParts (pre ++ article :: post) current
      = pre.map contextFullPart ++ truncPiece article (current + sizeSum pre)
  | [], article, post, current, _, hover => by
    simp only [sizeSum, List.map_nil, List.sum_nil, Nat.add_zero] at hover ⊢
    simp only [List.nil_append, buildContextParts]
    rw [if_pos (by simp only [partSize] at hover; omega)]
    simp only [truncPiece]
  | p :: pre, article, post, current, hfit, hover => by
    obtain ⟨h1, h2⟩ := hfit
    have hs : current + sizeSum (p :: pre) = current + partSize p + sizeSum pre := by
      rw [sizeSum_cons]; omega
    rw [hs] at hover ⊢
    simp only [List.cons_append, buildContextParts, List.map_cons]
    rw [if_neg (by simp only [partSize] at h1; omega)]
    exact congrArg _ (buildContextParts_overflow pre article post _ h2 hover)

/-- C2 (amended): the context builder appends each ranked article's header
plus full text in order while every addition stays within the budget; at
the first article whose addition would exceed the budget it stops, and
that article is kept only as a truncated entry (cut to the remaining
space, with the `... (truncated)` marker) when more than 100 characters of
content space remain after reserving the header and 20 characters for the
marker — otherwise the article is dropped entirely.  In both cases no
article after it is added. -/
theorem C2_ranked_order_truncation :
    (∀ (l : List ProcessedContent) (current : Nat), allFitFrom l current →
      buildContextParts l current = l.map contextFullPart) ∧
    (∀ (pre : List ProcessedContent) (article : ProcessedContent)
      (post : List ProcessedContent) (current : Nat),
      allFitFrom pre current →
      current + sizeSum pre + partSize article > MAX_CONTEXT_CHARACTERS →
      buildContextParts (pre ++ article :: post) current
        = pre.map contextFullPart ++ truncPiece article (current + sizeSum pre)) :=
  ⟨buildContextParts_allFit, buildContextParts_overflow⟩

theorem partSize_kbNearFullArticle : partSize kbNearFullArticle = 7950 := by
  have hh : (articleHeader kbNearFullArticle).length = 25 := by
    have h : articleHeader kbNearFullArticle = "--- Article Title: A ---\n" := rfl
    rw [h]; decide
  have hc : kbNearFullArticle.processed_content.length = 7925 := by
    show (List.replicate 7925 'a').length = 7925
    exact List.length_replicate 7925 'a'
  simp [partSize, hh, hc]

theorem partSize_kbSecondArticle : partSize kbSecondArticle = 225 := by
  have hh : (articleHeader kbSecondArticle).length = 25 := by
    have h : articleHeader kbSecondArticle = "--- Article Title: B ---\n" := rfl
    rw [h]; decide
  have hc : kbSecondArticle.processed_content.length = 200 := by
    show (List.replicate 200 'b').length = 200
    exact List.length_replicate 200 'b'
  simp [partSize, hh, hc]

/-- C2 (counterexample to the claim as stated): with a first article of
7950 characters and a second of 225, the second article's addition would
exceed the budget, yet only 5 characters of content space remain, so the
loop drops the second article entirely — the built context has exactly
one part and contains no truncated version of the second article, while
the claim as stated requires a truncated entry for it. -/
theorem C2_counterexample :
    partSize kbNearFullArticle ≤ MAX_CONTEXT_CHARACTERS ∧
    partSize kbNearFullArticle + partSize kbSecondArticle > MAX_CONTEXT_CHARACTERS ∧
    buildContextParts [kbNearFullArticle, kbSecondArticle] 0
      = [contextFullPart kbNearFullArticle] := by
  refine ⟨by rw [partSize_kbNearFullArticle]; norm_num [MAX_CONTEXT_CHARACTERS],
    by rw [partSize_kbNearFullArticle, partSize_kbSecondArticle]
       norm_num [MAX_CONTEXT_CHARACTERS], ?_⟩
  have hfit : allFitFrom [kbNearFullArticle] 0 := by
    refine ⟨?_, trivial⟩
    rw [partSize_kbNearFullArticle]
    norm_num [MAX_CONTEXT_CHARACTERS]
  have hover : 0 + sizeSum [kbNearFullArticle] + partSize kbSecondArticle
      > MAX_CONTEXT_CHARACTERS := by
    rw [sizeSum_cons]
    simp only [sizeSum, List.map_nil, List.sum_nil]
    rw [partSize_kbNearFullArticle, partSize_kbSecondArticle]
    norm_num [MAX_CONTEXT_CHARACTERS]
  have h := buildContextParts_overflow [kbNearFullArticle] kbSecondArticle [] 0 hfit hover
  have hsz : 0 + sizeSum [kbNearFullArticle] = 7950 := by
    rw [sizeSum_cons]
    simp only [sizeSum, List.map_nil, List.sum_nil]
    rw [partSize_kbNearFullArticle]
    omega
  rw [hsz] at h
  have htr : truncPiece kbSecondArticle 7950 = [] := by
    simp only [truncPiece]
    rw [if_neg]
    have hh : (articleHeader kbSecondArticle).length = 25 := by
      have heq : articleHeader kbSecondArticle = "--- Article Title: B ---\n" := rfl
      rw [heq]; decide
    rw [hh]
    norm_num [MAX_CONTEXT_CHARACTERS]
  rw [htr, List.append_nil] at h
  simpa using h

/-- C2 (witness): a single 9025-character article overflows the budget at
the start, and the structure theorem describes the resulting (truncated)
context part list. -/
theorem C2_witness :
    allFitFrom [] 0 ∧
    (0 + sizeSum [] + partSize kbOverflowArticle > MAX_CONTEXT_CHARACTERS ∧
      buildContextParts ([] ++ kbOverflowArticle :: []) 0
        = [].map contextFullPart ++ truncPiece kbOverflowArticle (0 + sizeSum [])) := by
  have hover : 0 + sizeSum [] + partSize kbOverflowArticle > MAX_CONTEXT_CHARACTERS := by
    have hh : (articleHeader kbOverflowArticle).length = 25 := by
      have heq : articleHeader kbOverflowArticle = "--- Article Title: D ---\n" := rfl
      rw [heq]; decide
    have hc : kbOverflowArticle.processed_content.length = 9000 := by
      show (List.replicate 9000 'd').length = 9000
      exact List.length_replicate 9000 'd'
    simp only [sizeSum, List.map_nil, List.sum_nil, partSize, hh, hc]
    norm_num [MAX_CONTEXT_CHARACTERS]
  exact ⟨trivial, hover,
    C2_ranked_order_truncation.2 [] kbOverflowArticle [] 0 trivial hover⟩

/-- C5: when the embedding call fails (`create_embedding` returned `None`
— its own `except` clauses catch network, auth, rate-limit and
malformed-response errors), `knowledge_base_search` returns a string
beginning with the `CONTEXT_NOT_FOUND` sentinel, whatever the state of
the database query; the same sentinel comes back when the vector query
yields no articles.  The embedding itself is a total function, which is
the model of "never raises to its caller": even a raising database query
(`.error`) is mapped to a sentinel string. -/
theorem C5_embedding_failure_sentinel :
    (∀ (vectorQuery : Except String (List ProcessedContent)),
      hasPrefixS "CONTEXT_NOT_FOUND" (knowledge_base_search none vectorQuery) = true) ∧
    (∀ (query_embedding : Option (List Int)),
      hasPrefixS "CONTEXT_NOT_FOUND" (knowledge_base_search query_embedding (.ok [])) = true) := by
  constructor
  · intro vectorQuery
    simp only [knowledge_base_search]
    decide
  · intro query_embedding
    cases query_embedding with
    | none => decide
    | some v =>
      show hasPrefixS "CONTEXT_NOT_FOUND"
        "CONTEXT_NOT_FOUND: No specific information was found for this query." = true
      decide

/-- C5 (witness): a concrete failed-embedding call returns the sentinel. -/
theorem C5_witness :
    hasPrefixS "CONTEXT_NOT_FOUND" (knowledge_base_search none (.ok [])) = true :=
  C5_embedding_failure_sentinel.1 (.ok [])

theorem jsonrpcFieldErrors_ne_nil (v : Option JsonValue)
    (h : ∀ jv, v = some jv → charFieldToInternal jv ≠ Except.ok "2.0") :
    jsonrpcFieldErrors v ≠ [] := by
  cases v with
  | none => simp [jsonrpcFieldErrors]
  | some jv =>
    simp only [jsonrpcFieldErrors]
    cases hc : charFieldToInternal jv with
    | error e => simp
    | ok value =>
      simp only []
      rw [if_neg]
      · simp
      · simp only [beq_iff_eq]
        intro hs
        exact h jv rfl (by rw [hc, hs])

/-- C9 (counterexample to the claim as stated): the value " 2.0" is not
the exact string "2.0", yet DRF's CharField trims it to "2.0" before
`validate_jsonrpc` runs, so validation passes: the view proceeds to the
rest of the handler (here a 200 response produced with the agent invoked)
and no 400 / -32602 error is returned. -/
theorem C9_counterexample :
    bodyJsonrpcPadded.jsonrpc = some (JsonValue.jstr " 2.0") ∧
    (" 2.0" : String) ≠ "2.0" ∧
    serializerErrors bodyJsonrpcPadded = [] ∧
    a2a_post bodyJsonrpcPadded proceedAgentRun = proceedAgentRun ∧
    (a2a_post bodyJsonrpcPadded proceedAgentRun).agentInvoked = true :=
  ⟨rfl, by decide, by decide, by decide, by decide⟩

/-- C9 (amended): a request body whose `jsonrpc` field is missing, or
whose value does not come through the CharField conversion — `str()`
coercion of a string or number followed by whitespace trimming; `None`,
booleans and composites fail it outright — as the exact string "2.0",
fails `JSONRPCRequestSerializer`, and `A2AEndpointView.post` answers HTTP
400 carrying JSON-RPC error code -32602 with the `jsonrpc` field named in
the error data; the rest of the handler — in particular the agent call —
never runs, whatever it would have produced (`proceed` is arbitrary).
A value that merely trims or coerces to "2.0", such as " 2.0", is instead
accepted. -/
theorem C9_invalid_jsonrpc_rejected (b : A2ABody) (proceed : A2AViewResult)
    (h : ∀ jv, b.jsonrpc = some jv → charFieldToInternal jv ≠ Except.ok "2.0") :
    (a2a_post b proceed).httpStatus = 400 ∧
    (a2a_post b proceed).errorCode = some (-32602) ∧
    "jsonrpc" ∈ (a2a_post b proceed).errorDataFields ∧
    (a2a_post b proceed).agentInvoked = false := by
  have hj := jsonrpcFieldErrors_ne_nil b.jsonrpc h
  have hne : (jsonrpcFieldErrors b.jsonrpc).isEmpty = false := by
    cases hx : jsonrpcFieldErrors b.jsonrpc with
    | nil => exact absurd hx hj
    | cons a t => rfl
  have hkept : serializerErrors b
      = ("jsonrpc", jsonrpcFieldErrors b.jsonrpc) ::
        (([("id", idFieldErrors b.id),
           ("method", methodFieldErrors b.method)].filter (fun f => !f.2.isEmpty))
          ++ b.paramsFieldErrors) := by
    simp only [serializerErrors]
    rw [List.filter_cons_of_pos]
    · rfl
    · simp [hne]
  have hbranch : a2a_post b proceed
      = { httpStatus := 400, errorCode := some (-32602),
          errorDataFields := (serializerErrors b).map (fun f => f.1),
          agentInvoked := false } := by
    simp only [a2a_post]
    rw [if_neg]
    rw [hkept]
    simp
  rw [hbranch, hkept]
  refine ⟨rfl, rfl, ?_, rfl⟩
  simp

/-- C9 (witness): the concrete body with `jsonrpc: "1.0"` is rejected
with a 400, code -32602, the field named, and no agent invocation. -/
theorem C9_witness :
    (a2a_post bodyJsonrpc10 proceedAgentRun).httpStatus = 400 ∧
    (a2a_post bodyJsonrpc10 proceedAgentRun).errorCode = some (-32602) ∧
    "jsonrpc" ∈ (a2a_post bodyJsonrpc10 proceedAgentRun).errorDataFields ∧
    (a2a_post bodyJsonrpc10 proceedAgentRun).agentInvoked = false :=
  C9_invalid_jsonrpc_rejected bodyJsonrpc10 proceedAgentRun
    (fun jv hjv => by
      have hv : JsonValue.jstr "1.0" = jv := Option.some_inj.mp hjv
      subst hv
      intro hcontra
      injection hcontra with hs
      exact absurd hs (by decide))


theorem pickOldestUnprocessed_not_processed (raw : List RawContent) (item : RawContent)
    (h : pickOldestUnprocessed raw = some item) : item.is_processed = false := by
  unfold pickOldestUnprocessed at h
  have hmem : item ∈ (raw.filter (fun r => !r.is_processed)).insertionSort
      (fun a b => a.created_at ≤ b.created_at) := by
    cases hs : (raw.filter (fun r => !r.is_processed)).insertionSort
        (fun a b => a.created_at ≤ b.created_at) with
    | nil => rw [hs] at h; exact absurd h (by simp)
    | cons x t =>
      rw [hs] at h
      simp only [List.head?, Option.some.injEq] at h
      subst h
      exact List.mem_cons_self x t
  have hmem2 : item ∈ raw.filter (fun r => !r.is_processed) :=
    (List.perm_insertionSort _ _).mem_iff.mp hmem
  have := List.of_mem_filter hmem2
  simpa using this

theorem execute_ai_processing_ok_cases (ext : ExtServices) (db : ForexDB)
    (item : RawContent) (db2 : ForexDB)
    (hok : execute_ai_processing ext db item = .ok db2) :
    (db.processed.any (fun p => p.source_url == item.source_url) = true ∧ db2 = db) ∨
    (db.processed.any (fun p => p.source_url == item.source_url) = false ∧
      ext.clean_and_format_text item.raw_content item.content_type ≠ "" ∧
      containsSub "could not be processed"
        (ext.clean_and_format_text item.raw_content item.content_type) = false ∧
      ∃ v, ext.create_embedding
          (ext.clean_and_format_text item.raw_content item.content_type) = some v ∧
        db2 = { db with processed := db.processed ++ [⟨item.source_url, item.title,
            ext.clean_and_format_text item.raw_content item.content_type, v,
            item.content_type, parsePublishedAt ext item.published_at_str⟩] }) := by
  unfold execute_ai_processing at hok
  simp only [] at hok
  by_cases hdup : db.processed.any (fun p => p.source_url == item.source_url) = true
  · rw [if_pos hdup] at hok
    simp only [Except.ok.injEq] at hok
    exact Or.inl ⟨hdup, hok.symm⟩
  · have hdupf := Bool.eq_false_iff.mpr hdup
    rw [if_neg (by simp [hdupf])] at hok
    refine Or.inr ⟨hdupf, ?_⟩
    cases hbad : (ext.clean_and_format_text item.raw_content item.content_type == ""
        || containsSub "could not be processed"
          (ext.clean_and_format_text item.raw_content item.content_type)) with
    | true => rw [if_pos hbad] at hok; simp at hok
    | false =>
      rw [if_neg (by simp [hbad])] at hok
      have hbad' := hbad
      simp only [Bool.or_eq_false_iff, beq_eq_false_iff_ne] at hbad'
      cases hemb : ext.create_embedding
          (ext.clean_and_format_text item.raw_content item.content_type) with
      | none => rw [hemb] at hok; simp at hok
      | some v =>
        rw [hemb] at hok
        simp only [Except.ok.injEq] at hok
        exact ⟨hbad'.1, hbad'.2, v, rfl, hok.symm⟩

/-- C3 (counterexample to the claim as stated): on a staged row whose URL
already has a `ProcessedContent` row, the processor sets
`is_processed = True` even though the cleaning call can only fail, the
embedding call can only fail, and no `ProcessedContent` row is stored in
this run — the duplicate-skip path of `_execute_ai_processing` marks the
row processed without either external call succeeding. -/
theorem C3_counterexample :
    (∀ x y, extAllFail.clean_and_format_text x y = "") ∧
    (∀ x, extAllFail.create_embedding x = none) ∧
    (process_one_staged_content_item extAllFail dbDup).raw
      = [{ rawStagedDup with is_processed := true }] ∧
    (process_one_staged_content_item extAllFail dbDup).processed = dbDup.processed :=
  ⟨fun _ _ => rfl, fun _ => rfl, by decide, by decide⟩

/-- C3 (amended): the processor claims an unprocessed row; if any
processing step raises, the transaction rolls back and the whole state —
in particular the claimed row's `is_processed = False` flag — is
unchanged, so the item is retried on a later run.  When the transaction
commits, the claimed row is marked processed, and that happens only
because either (a) its URL already had a `ProcessedContent` row (the
duplicate-skip path, which stores nothing and makes no external call), or
(b) the LLM cleaning call returned usable text, the embedding call
returned a vector, and exactly the one new `ProcessedContent` row was
stored. -/
theorem C3_staged_row_marking (ext : ExtServices) (db : ForexDB) (item : RawContent)
    (hpick : pickOldestUnprocessed db.raw = some item) :
    item.is_processed = false ∧
    (∀ msg, execute_ai_processing ext db item = .error msg →
      process_one_staged_content_item ext db = db) ∧
    (∀ db2, execute_ai_processing ext db item = .ok db2 →
      (process_one_staged_content_item ext db).raw = markProcessed db.raw item.id ∧
      (db.processed.any (fun p => p.source_url == item.source_url) = true →
        (process_one_staged_content_item ext db).processed = db.processed) ∧
      (db.processed.any (fun p => p.source_url == item.source_url) = false →
        ext.clean_and_format_text item.raw_content item.content_type ≠ "" ∧
        containsSub "could not be processed"
          (ext.clean_and_format_text item.raw_content item.content_type) = false ∧
        ∃ v, ext.create_embedding
            (ext.clean_and_format_text item.raw_content item.content_type) = some v ∧
          (process_one_staged_content_item ext db).processed
            = db.processed ++ [⟨item.source_url, item.title,
                ext.clean_and_format_text item.raw_content item.content_type, v,
                item.content_type, parsePublishedAt ext item.published_at_str⟩])) := by
  refine ⟨pickOldestUnprocessed_not_processed db.raw item hpick, ?_, ?_⟩
  · intro msg herr
    simp only [process_one_staged_content_item, hpick, herr]
  · intro db2 hok
    have hrun : process_one_staged_content_item ext db
        = { db2 with raw := markProcessed db2.raw item.id } := by
      simp only [process_one_staged_content_item, hpick, hok]
    rcases execute_ai_processing_ok_cases ext db item db2 hok with
      ⟨hdup, hdb⟩ | ⟨hdupf, hne, hcontains, v, hemb, hdb⟩
    · subst hdb
      rw [hrun]
      exact ⟨rfl, fun _ => rfl, fun hc => absurd hdup (by simp [hc])⟩
    · subst hdb
      rw [hrun]
      refine ⟨rfl, ?_, ?_⟩
      · intro hc
        exact absurd hc (by simp [hdupf])
      · intro _
        exact ⟨hne, hcontains, v, hemb, rfl⟩

/-- C3 (witness): the processor picks the fresh staged row of `dbFresh`,
and that row is indeed unprocessed. -/
theorem C3_witness :
    pickOldestUnprocessed dbFresh.raw = some rawFresh ∧ rawFresh.is_processed = false :=
  ⟨by decide, (C3_staged_row_marking extOk dbFresh rawFresh (by decide)).1⟩

theorem uniqueUrlsB_append (l : List ProcessedContent) (row : ProcessedContent)
    (h : uniqueUrlsB l = true)
    (hnot : l.any (fun p => p.source_url == row.source_url) = false) :
    uniqueUrlsB (l ++ [row]) = true := by
  induction l with
  | nil => simp [uniqueUrlsB]
  | cons p l ih =>
    simp only [uniqueUrlsB, Bool.and_eq_true, Bool.not_eq_true'] at h
    simp only [List.any_cons, Bool.or_eq_false_iff] at hnot
    simp only [List.cons_append, uniqueUrlsB, Bool.and_eq_true, Bool.not_eq_true']
    refine ⟨?_, ih h.2 hnot.2⟩
    simp only [List.append_eq, List.any_append, List.any_cons, List.any_nil,
      Bool.or_eq_false_iff]
    refine ⟨h.1, ?_, trivial⟩
    have := hnot.1
    simp only [beq_eq_false_iff_ne] at this ⊢
    exact fun he => this he.symm

/-- C4: running the staged-content processor preserves the one-row-per-URL
invariant of `ProcessedContent`; moreover the claimed row is always one
with `is_processed = False` (an already-processed row is never claimed),
and when the claimed row's source URL already exists in `ProcessedContent`
the run stores no new row at all. -/
theorem C4_unique_source_url (ext : ExtServices) (db : ForexDB)
    (h : uniqueUrlsB db.processed = true) :
    uniqueUrlsB (process_one_staged_content_item ext db).processed = true ∧
    (∀ item, pickOldestUnprocessed db.raw = some item → item.is_processed = false) ∧
    (∀ item, pickOldestUnprocessed db.raw = some item →
      db.processed.any (fun p => p.source_url == item.source_url) = true →
      (process_one_staged_content_item ext db).processed = db.processed) := by
  refine ⟨?_, fun item hp => pickOldestUnprocessed_not_processed db.raw item hp, ?_⟩
  · cases hp : pickOldestUnprocessed db.raw with
    | none =>
      simp only [process_one_staged_content_item, hp]
      exact h
    | some item =>
      cases hex : execute_ai_processing ext db item with
      | error msg =>
        simp only [process_one_staged_content_item, hp, hex]
        exact h
      | ok db2 =>
        have hrun : process_one_staged_content_item ext db
            = { db2 with raw := markProcessed db2.raw item.id } := by
          simp only [process_one_staged_content_item, hp, hex]
        rw [hrun]
        rcases execute_ai_processing_ok_cases ext db item db2 hex with
          ⟨_, hdb⟩ | ⟨hdupf, _, _, v, _, hdb⟩
        · subst hdb; exact h
        · subst hdb
          exact uniqueUrlsB_append _ _ h hdupf
  · intro item hp hdup
    cases hex : execute_ai_processing ext db item with
    | error msg => simp only [process_one_staged_content_item, hp, hex]
    | ok db2 =>
      have hrun : process_one_staged_content_item ext db
          = { db2 with raw := markProcessed db2.raw item.id } := by
        simp only [process_one_staged_content_item, hp, hex]
      rw [hrun]
      rcases execute_ai_processing_ok_cases ext db item db2 hex with
        ⟨_, hdb⟩ | ⟨hdupf, _⟩
      · subst hdb; rfl
      · exact absurd hdup (by simp [hdupf])

/-- C4 (witness): on the concrete duplicate-URL database the invariant
holds before and after the run, and no new row is stored. -/
theorem C4_witness :
    uniqueUrlsB dbDup.processed = true ∧
    uniqueUrlsB (process_one_staged_content_item extAllFail dbDup).processed = true ∧
    (process_one_staged_content_item extAllFail dbDup).processed = dbDup.processed :=
  ⟨by decide, (C4_unique_source_url extAllFail dbDup (by decide)).1,
    (C4_unique_source_url extAllFail dbDup (by decide)).2.2 rawStagedDup
      (by decide) (by decide)⟩

theorem cacheGet_cacheSet (c : List (String × String)) (k v : String) :
    cacheGet (cacheSet c k v) k = some v := by
  induction c with
  | nil => simp [cacheSet, cacheGet]
  | cons kv rest ih =>
    cases hk : (kv.1 == k) with
    | true => simp [cacheSet, hk, cacheGet]
    | false => simp [cacheSet, hk, cacheGet, ih]

theorem agent_run_hit (exec : AgentExecution) (st : AgentState)
    (user_prompt context_id s : String)
    (hs : cacheGet st.cache (cacheKey user_prompt) = some s) (hne : s ≠ "") :
    get_agent_response_async exec st user_prompt context_id
      = { response := s,
          state := { st with history := st.history ++ [⟨context_id, user_prompt, s⟩] },
          liveExecuted := false } := by
  unfold get_agent_response_async
  simp only [hs]
  rw [if_neg (by simpa using hne)]

theorem agent_run_live_raise (exec : AgentExecution) (st : AgentState)
    (user_prompt context_id : String)
    (hmiss : cacheGet st.cache (cacheKey user_prompt) = none ∨
      cacheGet st.cache (cacheKey user_prompt) = some "")
    (hraise : exec.invoke = .error ()) :
    get_agent_response_async exec st user_prompt context_id
      = { response := internalErrorMessage, state := st, liveExecuted := true } := by
  unfold get_agent_response_async
  rcases hmiss with hm | hm
  · simp only [hm, hraise]
  · simp only [hm]
    rw [if_pos (show (("" : String) == "") = true from rfl)]
    simp only [hraise]

theorem agent_run_live_ok (exec : AgentExecution) (st : AgentState)
    (user_prompt context_id out : String)
    (hmiss : cacheGet st.cache (cacheKey user_prompt) = none ∨
      cacheGet st.cache (cacheKey user_prompt) = some "")
    (hok : exec.invoke = .ok out) :
    get_agent_response_async exec st user_prompt context_id
      = liveSuccessResult exec st user_prompt context_id out := by
  unfold get_agent_response_async liveSuccessResult
  rcases hmiss with hm | hm
  · simp only [hm, hok]
  · simp only [hm]
    rw [if_pos (show (("" : String) == "") = true from rfl)]
    simp only [hok]

theorem live_then_hit (exec exec2 : AgentExecution) (st : AgentState)
    (user_prompt context_id out : String)
    (hmiss : cacheGet st.cache (cacheKey user_prompt) = none ∨
      cacheGet st.cache (cacheKey user_prompt) = some "")
    (hok : exec.invoke = .ok out)
    (hne : (liveSuccessResult exec st user_prompt context_id out).response ≠ "") :
    (get_agent_response_async exec st user_prompt context_id).state.history
      = st.history ++ [⟨context_id, user_prompt,
          (get_agent_response_async exec st user_prompt context_id).response⟩] ∧
    (get_agent_response_async exec2
        (get_agent_response_async exec st user_prompt context_id).state
        user_prompt context_id).response
      = (get_agent_response_async exec st user_prompt context_id).response ∧
    (get_agent_response_async exec2
        (get_agent_response_async exec st user_prompt context_id).state
        user_prompt context_id).state.history
      = (get_agent_response_async exec st user_prompt context_id).state.history
        ++ [⟨context_id, user_prompt,
            (get_agent_response_async exec st user_prompt context_id).response⟩] := by
  have hrun := agent_run_live_ok exec st user_prompt context_id out hmiss hok
  rw [hrun]
  have h2 : cacheGet (liveSuccessResult exec st user_prompt context_id out).state.cache
      (cacheKey user_prompt)
      = some (liveSuccessResult exec st user_prompt context_id out).response :=
    cacheGet_cacheSet st.cache (cacheKey user_prompt) _
  have hrun2 := agent_run_hit exec2
    (liveSuccessResult exec st user_prompt context_id out).state user_prompt context_id
    (liveSuccessResult exec st user_prompt context_id out).response h2 hne
  rw [hrun2]
  exact ⟨rfl, rfl, rfl⟩

/-- C6 (counterexample to the claim as stated): the prompt "p" is present
in the response cache — with cached answer "" — yet `if cached_response:`
is Python truthiness, so the pipeline treats it as a miss: the live
LLM/agent path runs and its answer "X", not the cached text, is
returned. -/
theorem C6_counterexample :
    cacheGet stEmptyCached.cache (cacheKey "p") = some "" ∧
    (get_agent_response_async execOkX stEmptyCached "p" "ctx").liveExecuted = true ∧
    (get_agent_response_async execOkX stEmptyCached "p" "ctx").response = "X" :=
  ⟨by decide, by decide, by decide⟩

/-- C6 (amended): for every prompt whose text maps to a NON-EMPTY cached
answer, the pipeline returns that answer unchanged, appends exactly one
`ConversationHistory` row, leaves the cache untouched, and never enters
the live LLM/retrieval path; and whenever a call ends with its answer
cached (a non-empty cache hit, or a successful live run with non-empty
final text), an immediately following call with the same prompt returns
identical answer text, each of the two calls having appended exactly one
history row. -/
theorem C6_cached_response_path (exec : AgentExecution) (st : AgentState)
    (user_prompt context_id : String) :
    (∀ s, cacheGet st.cache (cacheKey user_prompt) = some s → s ≠ "" →
      (get_agent_response_async exec st user_prompt context_id).response = s ∧
      (get_agent_response_async exec st user_prompt context_id).liveExecuted = false ∧
      (get_agent_response_async exec st user_prompt context_id).state.cache = st.cache ∧
      (get_agent_response_async exec st user_prompt context_id).state.history
        = st.history ++ [⟨context_id, user_prompt, s⟩]) ∧
    (∀ exec2 : AgentExecution,
      cacheGet (get_agent_response_async exec st user_prompt context_id).state.cache
          (cacheKey user_prompt)
        = some (get_agent_response_async exec st user_prompt context_id).response →
      (get_agent_response_async exec st user_prompt context_id).response ≠ "" →
      (get_agent_response_async exec st user_prompt context_id).state.history
        = st.history ++ [⟨context_id, user_prompt,
            (get_agent_response_async exec st user_prompt context_id).response⟩] ∧
      (get_agent_response_async exec2
          (get_agent_response_async exec st user_prompt context_id).state
          user_prompt context_id).response
        = (get_agent_response_async exec st user_prompt context_id).response ∧
      (get_agent_response_async exec2
          (get_agent_response_async exec st user_prompt context_id).state
          user_prompt context_id).state.history
        = (get_agent_response_async exec st user_prompt context_id).state.history
          ++ [⟨context_id, user_prompt,
              (get_agent_response_async exec st user_prompt context_id).response⟩]) := by
  constructor
  · intro s hs hne
    rw [agent_run_hit exec st user_prompt context_id s hs hne]
    exact ⟨rfl, rfl, rfl, rfl⟩
  · intro exec2 hcache hne
    cases hget : cacheGet st.cache (cacheKey user_prompt) with
    | some s =>
      by_cases hse : s = ""
      · subst hse
        cases hinv : exec.invoke with
        | error u =>
          have hrun := agent_run_live_raise exec st user_prompt context_id
            (Or.inr hget) (by cases u; exact hinv)
          rw [hrun] at hcache
          rw [hget] at hcache
          simp only [Option.some.injEq] at hcache
          exact absurd hcache.symm (by decide)
        | ok out =>
          have hne' : (liveSuccessResult exec st user_prompt context_id out).response ≠ "" := by
            rw [agent_run_live_ok exec st user_prompt context_id out (Or.inr hget) hinv] at hne
            exact hne
          exact live_then_hit exec exec2 st user_prompt context_id out
            (Or.inr hget) hinv hne'
      · have hrun := agent_run_hit exec st user_prompt context_id s hget hse
        rw [hrun]
        refine ⟨rfl, ?_, ?_⟩
        · have hrun2 := agent_run_hit exec2
            ({ st with history := st.history ++ [⟨context_id, user_prompt, s⟩] } : AgentState)
            user_prompt context_id s hget hse
          rw [hrun2]
        · have hrun2 := agent_run_hit exec2
            ({ st with history := st.history ++ [⟨context_id, user_prompt, s⟩] } : AgentState)
            user_prompt context_id s hget hse
          rw [hrun2]
    | none =>
      cases hinv : exec.invoke with
      | error u =>
        have hrun := agent_run_live_raise exec st user_prompt context_id
          (Or.inl hget) (by cases u; exact hinv)
        rw [hrun] at hcache
        rw [hget] at hcache
        exact absurd hcache (by simp)
      | ok out =>
        have hne' : (liveSuccessResult exec st user_prompt context_id out).response ≠ "" := by
          rw [agent_run_live_ok exec st user_prompt context_id out (Or.inl hget) hinv] at hne
          exact hne
        exact live_then_hit exec exec2 st user_prompt context_id out
          (Or.inl hget) hinv hne'

/-- C6 (witness): for the concrete state caching "ans" under the prompt
"p", the amended theorem yields the cached text, no live execution, and
one appended history row. -/
theorem C6_witness :
    cacheGet stCachedAns.cache (cacheKey "p") = some "ans" ∧
    ("ans" : String) ≠ "" ∧
    ((get_agent_response_async execOkX stCachedAns "p" "ctx").response = "ans" ∧
      (get_agent_response_async execOkX stCachedAns "p" "ctx").liveExecuted = false ∧
      (get_agent_response_async execOkX stCachedAns "p" "ctx").state.cache
        = stCachedAns.cache ∧
      (get_agent_response_async execOkX stCachedAns "p" "ctx").state.history
        = stCachedAns.history ++ [⟨"ctx", "p", "ans"⟩]) :=
  ⟨by decide, by decide,
    (C6_cached_response_path execOkX stCachedAns "p" "ctx").1 "ans" (by decide) (by decide)⟩

/-- C10: after a cache miss (no entry, or the falsy empty-string entry),
when the live agent execution raises —  executor creation failed or
`invoke`/output extraction raised — `get_agent_response_async` returns the
fixed internal-error apology and leaves the persisted state exactly as it
was: no `ConversationHistory` row and no cache entry are written. -/
theorem C10_live_error_state_unchanged (exec : AgentExecution) (st : AgentState)
    (user_prompt context_id : String)
    (hmiss : cacheGet st.cache (cacheKey user_prompt) = none ∨
      cacheGet st.cache (cacheKey user_prompt) = some "")
    (hraise : exec.invoke = .error ()) :
    (get_agent_response_async exec st user_prompt context_id).response
      = internalErrorMessage ∧
    (get_agent_response_async exec st user_prompt context_id).state = st ∧
    (get_agent_response_async exec st user_prompt context_id).liveExecuted = true := by
  rw [agent_run_live_raise exec st user_prompt context_id hmiss hraise]
  exact ⟨rfl, rfl, rfl⟩

/-- C10 (witness): a concrete raising run on the empty state returns the
apology and changes nothing. -/
theorem C10_witness :
    (cacheGet stEmpty.cache (cacheKey "what is a pip?") = none ∨
      cacheGet stEmpty.cache (cacheKey "what is a pip?") = some "") ∧
    execRaise.invoke = .error () ∧
    ((get_agent_response_async execRaise stEmpty "what is a pip?" "ctx").response
        = internalErrorMessage ∧
      (get_agent_response_async execRaise stEmpty "what is a pip?" "ctx").state = stEmpty ∧
      (get_agent_response_async execRaise stEmpty "what is a pip?" "ctx").liveExecuted
        = true) :=
  ⟨Or.inl rfl, rfl,
    C10_live_error_state_unchanged execRaise stEmpty "what is a pip?" "ctx"
      (Or.inl rfl) rfl⟩

/-- C8: `get_latest_market_news` answers with the sentinel when the query
raises or yields no news rows; otherwise it returns the preamble plus one
`- **title**: text` bullet per selected row, where the selection holds at
most 5 rows, every selected row is a news row of the database, the
selection is ordered by publication date descending, and the selection
dominates the remaining news rows (it is the 5 most recent). -/
theorem C8_latest_news (processed : List ProcessedContent) :
    (∀ e, hasPrefixS "CONTEXT_NOT_FOUND"
      (get_latest_market_news processed (some e)) = true) ∧
    (newsQueryRows processed = [] →
      hasPrefixS "CONTEXT_NOT_FOUND" (get_latest_market_news processed none) = true) ∧
    (newsQueryRows processed ≠ [] →
      get_latest_market_news processed none
        = newsPreamble ++ String.join ((newsQueryRows processed).map newsBullet)) ∧
    (newsQueryRows processed).length ≤ 5 ∧
    (∀ x ∈ newsQueryRows processed, x.content_type = "news" ∧ x ∈ processed) ∧
    List.Pairwise newsDescRel (newsQueryRows processed) ∧
    (∃ rest, (processed.filter (fun p => p.content_type == "news")).Perm
        (newsQueryRows processed ++ rest) ∧
      ∀ y ∈ rest, ∀ x ∈ newsQueryRows processed, newsLeB x y = true) := by
  refine ⟨?_, ?_, ?_, ?_, ?_, ?_, ?_⟩
  · intro e
    simp only [get_latest_market_news]
    exact hasPrefixS_append _ _ e (by decide)
  · intro h
    simp only [get_latest_market_news, h, List.isEmpty_nil, if_true]
    decide
  · intro h
    simp only [get_latest_market_news]
    rw [if_neg (by simpa [List.isEmpty_iff] using h)]
  · unfold newsQueryRows
    rw [List.length_take]
    exact min_le_left _ _
  · intro x hx
    unfold newsQueryRows at hx
    have hx1 := List.mem_of_mem_take hx
    have hx2 := (List.perm_insertionSort newsDescRel _).mem_iff.mp hx1
    refine ⟨?_, List.mem_of_mem_filter hx2⟩
    have := List.of_mem_filter hx2
    simpa using this
  · unfold newsQueryRows
    exact (List.sorted_insertionSort newsDescRel _).sublist
      (List.take_sublist 5 _)
  · refine ⟨((processed.filter (fun p => p.content_type == "news")).insertionSort
        newsDescRel).drop 5, ?_, ?_⟩
    · have hperm := (List.perm_insertionSort newsDescRel
        (processed.filter (fun p => p.content_type == "news"))).symm
      unfold newsQueryRows
      rw [List.take_append_drop]
      exact hperm
    · intro y hy x hx
      have hsorted : List.Pairwise newsDescRel
          ((processed.filter (fun p => p.content_type == "news")).insertionSort
            newsDescRel) :=
        List.sorted_insertionSort newsDescRel _
      have hsplit : List.Pairwise newsDescRel
          (((processed.filter (fun p => p.content_type == "news")).insertionSort
              newsDescRel).take 5
            ++ ((processed.filter (fun p => p.content_type == "news")).insertionSort
              newsDescRel).drop 5) := by
        rw [List.take_append_drop]
        exact hsorted
      exact (List.pairwise_append.mp hsplit).2.2 x hx y hy

/-- C8 (witness): on the concrete three-row knowledge base the selection
is non-empty and the formatted summary equals preamble plus bullets. -/
theorem C8_witness :
    newsQueryRows newsDb ≠ [] ∧
    get_latest_market_news newsDb none
      = newsPreamble ++ String.join ((newsQueryRows newsDb).map newsBullet) :=
  ⟨by decide, (C8_latest_news newsDb).2.2.1 (by decide)⟩
